import Mathlib

/-!
Verification of the here-news extraction pipeline (task store, content
validator, entity resolver, claim-extraction gatekeeper and the HTTP
status handlers) against its natural-language specification.

The Python sources are shallowly embedded: dict-shaped payloads become
structures, Python strings become `String`, floats become `ℚ`, and the
fallible handler code is modelled in `Except` with an explicit
`AttributeError`-style error value.  Python `set`s (whose iteration
order is unspecified) are modelled as `Finset String`.
-/

namespace POC

/-! ## String helpers mirroring the Python primitives -/

/-- Contiguous-sublist test on character lists. -/
def is_substring (pat : List Char) : List Char → Bool
  | [] => pat.isEmpty
  | c :: t => pat.isPrefixOf (c :: t) || is_substring pat t

/-- Python `pat in s` (substring containment). -/
def str_contains (s pat : String) : Bool :=
  is_substring pat.data s.data

/-- Python `":" in w` (single-character containment). -/
def has_colon (w : String) : Bool :=
  w.data.contains ':'

/-- Python `s.lower()` (character-wise lowering; the texts involved are
ASCII). -/
def lower_str (s : String) : String :=
  String.mk (s.data.map Char.toLower)

/-- Drop leading and trailing whitespace from a character list. -/
def strip_chars (l : List Char) : List Char :=
  ((l.dropWhile Char.isWhitespace).reverse.dropWhile Char.isWhitespace).reverse

/-- Python `s.strip()`. -/
def strip_str (s : String) : String :=
  String.mk (strip_chars s.data)

/-- Python `s.startswith(p)`. -/
def starts_with (s p : String) : Bool :=
  p.data.isPrefixOf s.data

/-- Python `s[:n]` (first `n` characters). -/
def str_take (s : String) (n : Nat) : String :=
  String.mk (s.data.take n)

/-- Python `s[n:]` (all but the first `n` characters). -/
def str_drop (s : String) (n : Nat) : String :=
  String.mk (s.data.drop n)

/-- Word counter for Python `len(s.split())`: words are maximal
non-whitespace runs. -/
def wc_aux : List Char → Bool → Nat
  | [], _ => 0
  | c :: t, inWord =>
    if c.isWhitespace then wc_aux t false
    else (if inWord then 0 else 1) + wc_aux t true

/-- Python `len(s.split())`. -/
def word_count (s : String) : Nat :=
  wc_aux s.data false

/-- Truthiness of an optional string (Python: `None` and `""` are falsy). -/
def truthy : Option String → Bool
  | none => false
  | some s => !s.isEmpty

/-! ## Byte-level hashing

`hashlib.sha256` (claim ids) and `hashlib.md5` (entity ids) are embedded
in full, over `List Nat` byte strings, with 32-bit words represented as
`Nat` reduced mod `2^32`. -/

/-- UTF-8 encoding of one character (Python `str.encode()`). -/
def utf8Char (c : Char) : List Nat :=
  let n := c.toNat
  if n < 0x80 then [n]
  else if n < 0x800 then
    [0xC0 ||| (n >>> 6), 0x80 ||| (n &&& 0x3F)]
  else if n < 0x10000 then
    [0xE0 ||| (n >>> 12), 0x80 ||| ((n >>> 6) &&& 0x3F), 0x80 ||| (n &&& 0x3F)]
  else
    [0xF0 ||| (n >>> 18), 0x80 ||| ((n >>> 12) &&& 0x3F),
     0x80 ||| ((n >>> 6) &&& 0x3F), 0x80 ||| (n &&& 0x3F)]

/-- UTF-8 bytes of a string (Python `s.encode()`). -/
def utf8Bytes (s : String) : List Nat :=
  s.data.foldr (fun c acc => utf8Char c ++ acc) []

/-- Reduce to a 32-bit word. -/
def w32 (n : Nat) : Nat := n % 4294967296

/-- 32-bit rotate right. -/
def rotr (k x : Nat) : Nat := w32 ((x >>> k) ||| (x <<< (32 - k)))

/-- 32-bit rotate left. -/
def rotl (k x : Nat) : Nat := w32 ((x <<< k) ||| (x >>> (32 - k)))

/-- Split a byte string into 64-byte blocks, with an explicit fuel bound
(each step consumes at least one byte, so `fuel = length` suffices). -/
def chunks64_fuel : Nat → List Nat → List (List Nat)
  | _, [] => []
  | 0, _ :: _ => []
  | fuel + 1, a :: rest =>
    (a :: rest).take 64 :: chunks64_fuel fuel ((a :: rest).drop 64)

/-- Split a byte string into 64-byte blocks. -/
def chunks64 (l : List Nat) : List (List Nat) :=
  chunks64_fuel l.length l

/-- Big-endian 64-bit byte encoding. -/
def be64 (n : Nat) : List Nat :=
  (List.range 8).map (fun i => (n >>> (8 * (7 - i))) % 256)

/-- Little-endian 64-bit byte encoding. -/
def le64 (n : Nat) : List Nat :=
  (List.range 8).map (fun i => (n >>> (8 * i)) % 256)

/-- Big-endian 32-bit word from 4 bytes. -/
def word32BE (bs : List Nat) : Nat :=
  bs.foldl (fun acc b => acc * 256 + b) 0

/-- Little-endian 32-bit word from 4 bytes. -/
def word32LE (bs : List Nat) : Nat :=
  bs.foldr (fun b acc => acc * 256 + b) 0

/-- The sixteen 32-bit big-endian words of a 64-byte block. -/
def words16BE (block : List Nat) : List Nat :=
  (List.range 16).map (fun i => word32BE ((block.drop (4 * i)).take 4))

/-- The sixteen 32-bit little-endian words of a 64-byte block. -/
def words16LE (block : List Nat) : List Nat :=
  (List.range 16).map (fun i => word32LE ((block.drop (4 * i)).take 4))

def hexDigit (n : Nat) : Char :=
  "0123456789abcdef".data.getD n 'x'

/-- Lowercase hex of a 32-bit word, big-endian digit order. -/
def hex8 (w : Nat) : String :=
  String.mk ((List.range 8).map (fun i => hexDigit ((w >>> (4 * (7 - i))) % 16)))

/-- Lowercase hex of one byte. -/
def hex2 (b : Nat) : String :=
  String.mk [hexDigit (b / 16), hexDigit (b % 16)]

/-! ### SHA-256 (FIPS 180-4) -/

def sha256K : List Nat :=
  [1116352408, 1899447441, 3049323471, 3921009573, 961987163, 1508970993,
   2453635748, 2870763221, 3624381080, 310598401, 607225278, 1426881987,
   1925078388, 2162078206, 2614888103, 3248222580, 3835390401, 4022224774,
   264347078, 604807628, 770255983, 1249150122, 1555081692, 1996064986,
   2554220882, 2821834349, 2952996808, 3210313671, 3336571891, 3584528711,
   113926993, 338241895, 666307205, 773529912, 1294757372, 1396182291,
   1695183700, 1986661051, 2177026350, 2456956037, 2730485921, 2820302411,
   3259730800, 3345764771, 3516065817, 3600352804, 4094571909, 275423344,
   430227734, 506948616, 659060556, 883997877, 958139571, 1322822218,
   1537002063, 1747873779, 1955562222, 2024104815, 2227730452, 2361852424,
   2428436474, 2756734187, 3204031479, 3329325298]

def sha256H0 : List Nat :=
  [1779033703, 3144134277, 1013904242, 2773480762,
   1359893119, 2600822924, 528734635, 1541459225]

/-- Padding: append `0x80`, zeros to 56 mod 64, then the bit length big-endian. -/
def sha256pad (msg : List Nat) : List Nat :=
  let L := msg.length
  let k := (120 - ((L + 1) % 64)) % 64
  msg ++ [0x80] ++ List.replicate k 0 ++ be64 (8 * L)

/-- Message-schedule extension of the 16 block words to 64. -/
def sha256sched (w16 : List Nat) : List Nat :=
  (List.range 48).foldl (fun ws i =>
    let t := i + 16
    let x15 := ws.getD (t - 15) 0
    let x2 := ws.getD (t - 2) 0
    let s0 := (rotr 7 x15) ^^^ (rotr 18 x15) ^^^ (x15 >>> 3)
    let s1 := (rotr 17 x2) ^^^ (rotr 19 x2) ^^^ (x2 >>> 10)
    ws ++ [w32 (ws.getD (t - 16) 0 + s0 + ws.getD (t - 7) 0 + s1)]) w16

def sha256round (st : Nat × Nat × Nat × Nat × Nat × Nat × Nat × Nat)
    (wk : Nat × Nat) : Nat × Nat × Nat × Nat × Nat × Nat × Nat × Nat :=
  let (a, b, c, d, e, f, g, h) := st
  let (w, k) := wk
  let s1 := (rotr 6 e) ^^^ (rotr 11 e) ^^^ (rotr 25 e)
  let ch := (e &&& f) ^^^ ((e ^^^ 0xFFFFFFFF) &&& g)
  let temp1 := w32 (h + s1 + ch + k + w)
  let s0 := (rotr 2 a) ^^^ (rotr 13 a) ^^^ (rotr 22 a)
  let maj := (a &&& b) ^^^ (a &&& c) ^^^ (b &&& c)
  let temp2 := w32 (s0 + maj)
  (w32 (temp1 + temp2), a, b, c, w32 (d + temp1), e, f, g)

def sha256block (hs : List Nat) (block : List Nat) : List Nat :=
  let ws := sha256sched (words16BE block)
  let init := (hs.getD 0 0, hs.getD 1 0, hs.getD 2 0, hs.getD 3 0,
               hs.getD 4 0, hs.getD 5 0, hs.getD 6 0, hs.getD 7 0)
  let (a, b, c, d, e, f, g, h) := (ws.zip sha256K).foldl sha256round init
  [w32 (hs.getD 0 0 + a), w32 (hs.getD 1 0 + b), w32 (hs.getD 2 0 + c),
   w32 (hs.getD 3 0 + d), w32 (hs.getD 4 0 + e), w32 (hs.getD 5 0 + f),
   w32 (hs.getD 6 0 + g), w32 (hs.getD 7 0 + h)]

/-- `hashlib.sha256(msg).hexdigest()`. -/
def sha256hex (msg : List Nat) : String :=
  let hs := (chunks64 (sha256pad msg)).foldl sha256block sha256H0
  String.join (hs.map hex8)

/-! ### MD5 (RFC 1321) -/

def md5K : List Nat :=
  [0xd76aa478, 0xe8c7b756, 0x242070db, 0xc1bdceee, 0xf57c0faf, 0x4787c62a,
   0xa8304613, 0xfd469501, 0x698098d8, 0x8b44f7af, 0xffff5bb1, 0x895cd7be,
   0x6b901122, 0xfd987193, 0xa679438e, 0x49b40821, 0xf61e2562, 0xc040b340,
   0x265e5a51, 0xe9b6c7aa, 0xd62f105d, 0x02441453, 0xd8a1e681, 0xe7d3fbc8,
   0x21e1cde6, 0xc33707d6, 0xf4d50d87, 0x455a14ed, 0xa9e3e905, 0xfcefa3f8,
   0x676f02d9, 0x8d2a4c8a, 0xfffa3942, 0x8771f681, 0x6d9d6122, 0xfde5380c,
   0xa4beea44, 0x4bdecfa9, 0xf6bb4b60, 0xbebfbc70, 0x289b7ec6, 0xeaa127fa,
   0xd4ef3085, 0x04881d05, 0xd9d4d039, 0xe6db99e5, 0x1fa27cf8, 0xc4ac5665,
   0xf4292244, 0x432aff97, 0xab9423a7, 0xfc93a039, 0x655b59c3, 0x8f0ccc92,
   0xffeff47d, 0x85845dd1, 0x6fa87e4f, 0xfe2ce6e0, 0xa3014314, 0x4e0811a1,
   0xf7537e82, 0xbd3af235, 0x2ad7d2bb, 0xeb86d391]

def md5S : List Nat :=
  [7, 12, 17, 22, 7, 12, 17, 22, 7, 12, 17, 22, 7, 12, 17, 22,
   5, 9, 14, 20, 5, 9, 14, 20, 5, 9, 14, 20, 5, 9, 14, 20,
   4, 11, 16, 23, 4, 11, 16, 23, 4, 11, 16, 23, 4, 11, 16, 23,
   6, 10, 15, 21, 6, 10, 15, 21, 6, 10, 15, 21, 6, 10, 15, 21]

/-- Padding: append `0x80`, zeros to 56 mod 64, then the bit length little-endian. -/
def md5pad (msg : List Nat) : List Nat :=
  let L := msg.length
  let k := (120 - ((L + 1) % 64)) % 64
  msg ++ [0x80] ++ List.replicate k 0 ++ le64 (8 * L)

def md5round (m : List Nat) (st : Nat × Nat × Nat × Nat) (i : Nat) :
    Nat × Nat × Nat × Nat :=
  let (a, b, c, d) := st
  let notB := b ^^^ 0xFFFFFFFF
  let notD := d ^^^ 0xFFFFFFFF
  let (f, g) :=
    if i < 16 then ((b &&& c) ||| (notB &&& d), i)
    else if i < 32 then ((d &&& b) ||| (notD &&& c), (5 * i + 1) % 16)
    else if i < 48 then (b ^^^ c ^^^ d, (3 * i + 5) % 16)
    else (c ^^^ (b ||| notD), (7 * i) % 16)
  let f' := w32 (f + a + md5K.getD i 0 + m.getD g 0)
  (d, w32 (b + rotl (md5S.getD i 0) f'), b, c)

def md5block (st : Nat × Nat × Nat × Nat) (block : List Nat) :
    Nat × Nat × Nat × Nat :=
  let m := words16LE block
  let (a, b, c, d) := (List.range 64).foldl (md5round m) st
  let (a0, b0, c0, d0) := st
  (w32 (a0 + a), w32 (b0 + b), w32 (c0 + c), w32 (d0 + d))

/-- Little-endian byte-order hex of one 32-bit word. -/
def md5hexWord (w : Nat) : String :=
  hex2 (w % 256) ++ hex2 ((w >>> 8) % 256) ++ hex2 ((w >>> 16) % 256) ++
    hex2 ((w >>> 24) % 256)

/-- `hashlib.md5(msg).hexdigest()`. -/
def md5hex (msg : List Nat) : String :=
  let (a, b, c, d) :=
    (chunks64 (md5pad msg)).foldl md5block (0x67452301, 0xefcdab89, 0x98badcfe, 0x10325476)
  md5hexWord a ++ md5hexWord b ++ md5hexWord c ++ md5hexWord d

/-! ## Number formatting used in the gatekeeper's confidence reason -/

/-- Round to the nearest integer, ties to even (Python rounding). -/
def round_half_even (q : ℚ) : ℤ :=
  let f := ⌊q⌋
  let r := q - f
  if r < mkRat 1 2 then f
  else if mkRat 1 2 < r then f + 1
  else if f % 2 = 0 then f else f + 1

/-- Embedding of the Python f-string format `:.2f` on a nonnegative value. -/
def fmt2 (q : ℚ) : String :=
  let n := (round_half_even (q * 100)).toNat
  toString (n / 100) ++ "." ++ (if n % 100 < 10 then "0" else "") ++ toString (n % 100)

/-- Python `round(x, 3)`. -/
def round3 (q : ℚ) : ℚ :=
  (round_half_even (q * 1000) : ℚ) / 1000

/-! ## Task Store (`services/task_store.py`)

`TaskStore.update_task_status` builds an `update_data` dict (status,
`updated_at`, optionally `current_stage` and `completed_at`) and merges it
into the Firestore document.  The document fields it can touch are
modelled as `TaskDoc`; the server timestamp is a `Nat` parameter and the
`completed_at` wall-clock string a `String` parameter. -/

/-- The fixed stage order of the pipeline. -/
def stage_order : List String :=
  ["pending", "extraction", "cleaning", "resolution", "semantization"]

def stage_index (s : String) : Nat := stage_order.indexOf s

structure TaskDoc where
  status : String
  current_stage : String
  completed_at : Option String
  updated_at : Nat
deriving DecidableEq

/-- `TaskStore.update_task_status(task_id, status, stage)`: the effect of the
Firestore merge on the task document.  `stage` is included only when truthy
(Python `if stage:`); `completed_at` is set when the new status is
`completed` or `failed`. -/
def update_task_status (t : TaskDoc) (status : String) (stage : Option String)
    (now : String) (ts : Nat) : TaskDoc :=
  let t1 := { t with status := status, updated_at := ts }
  let t2 :=
    match stage with
    | some s => if s.isEmpty then t1 else { t1 with current_stage := s }
    | none => t1
  if status = "completed" ∨ status = "failed" then
    { t2 with completed_at := some now }
  else t2

/-! ## Claim extractor (`services/semantic_analyzer.py`) -/

/-- The `when` dict of a claim.  A missing or empty dict is `Option.none`
at the claim level; each key is `Option String` (absent/None vs present). -/
structure WhenData where
  date : Option String := none
  time : Option String := none
  precision : Option String := none
  event_time : Option String := none
  temporal_context : Option String := none
  reported_time : Option String := none
  event_time_iso : Option String := none
deriving DecidableEq

/-- A candidate claim as the gatekeeper sees it.  `whereRefs` models the
Python `where` key (a Lean reserved word). -/
structure ClaimData where
  id : String := ""
  text : String
  who : List String := []
  whereRefs : List String := []
  «when» : Option WhenData := none
  modality : String := ""
  evidence_references : List String := []
  confidence : ℚ := 0
  excluded_reason : Option String := none
deriving DecidableEq

def hedging_terms : List String :=
  ["reportedly", "allegedly", "might have", "may have", "rumored", "unconfirmed"]

def criminal_terms : List String :=
  ["murdered", "killed", "assassinated", "raped", "trafficked", "kidnapped"]

def valid_modalities : List String :=
  ["official_fact", "reported_claim", "allegation", "opinion"]

/-- `EnhancedSemanticAnalyzer._passes_claim_premises`: the admission
gatekeeper.  Returns `(is_admitted, exclusion_reason)`. -/
def passes_claim_premises (c : ClaimData) : Bool × String :=
  let text := lower_str c.text
  if c.who.isEmpty || c.who.all (fun w => !has_colon w) then
    (false, "Attribution: No named source (WHO)")
  else if !truthy (c.when.bind (fun w => w.date)) then
    (false, "Temporal: Missing event time (WHEN)")
  else if c.modality == "" || !valid_modalities.contains c.modality then
    (false, "Modality: Not specified or invalid")
  else if c.evidence_references.isEmpty || c.evidence_references.length == 0 then
    (false, "Evidence: No artifacts referenced")
  else if hedging_terms.any (fun h => str_contains text h) then
    (false, "Hedging: Vague language without proper attribution")
  else if criminal_terms.any (fun t => str_contains text t) &&
      !(c.modality == "official_fact") then
    (false, "Controversy: Criminal implication requires official_fact modality")
  else if c.confidence < mkRat 13 20 then
    (false, "Confidence: Below threshold (" ++ fmt2 c.confidence ++ " < 0.65)")
  else (true, "")

/-- The admission loop of `extract_enhanced_claims`: each claim goes to the
admitted list or, tagged with its `excluded_reason`, to the excluded list. -/
def run_gatekeeper : List ClaimData → List ClaimData × List ClaimData
  | [] => ([], [])
  | c :: rest =>
    let p := run_gatekeeper rest
    let r := passes_claim_premises c
    if r.1 then (c :: p.1, p.2)
    else (p.1, { c with excluded_reason := some r.2 } :: p.2)

/-- The entity aggregate `{people, organizations, locations,
time_references}`.  Python builds `set`s (unspecified iteration order), so
each category is a `Finset String`. -/
structure Entities where
  people : Finset String
  organizations : Finset String
  locations : Finset String
  time_references : Finset String
deriving DecidableEq

def Entities.empty : Entities := ⟨∅, ∅, ∅, ∅⟩

/-- Python `where.split(':', 1)[-1]`: everything after the first colon. -/
def after_colon (s : String) : String :=
  String.mk ((s.data.dropWhile (fun c => !(c == ':'))).drop 1)

/-- The location name added for one `where` entry (split off the type
prefix when a colon is present, then `strip()`). -/
def loc_name (s : String) : String :=
  if has_colon s then strip_str (after_colon s) else strip_str s

/-- The `who`-loop body of `_extract_entities_from_claims`: `PERSON:`
entries feed `people`, `ORG:` entries feed `organizations`. -/
def who_step (acc : Entities) (w : String) : Entities :=
  if starts_with w "PERSON:" then
    { acc with people := insert (str_drop w 7) acc.people }
  else if starts_with w "ORG:" then
    { acc with organizations := insert (str_drop w 4) acc.organizations }
  else acc

/-- The `where`-loop body: each entry feeds `locations`. -/
def where_step (acc : Entities) (wh : String) : Entities :=
  { acc with locations := insert (loc_name wh) acc.locations }

/-- The `when` block: truthy `date`, `event_time` and `temporal_context`
feed `time_references`. -/
def when_step (e : Entities) : Option WhenData → Entities
  | none => e
  | some w =>
    let e3 := if truthy w.date then
        { e with time_references := insert (w.date.getD "") e.time_references }
      else e
    let e4 := if truthy w.event_time then
        { e3 with time_references := insert (w.event_time.getD "") e3.time_references }
      else e3
    if truthy w.temporal_context then
      { e4 with time_references := insert (w.temporal_context.getD "") e4.time_references }
    else e4

/-- One iteration of the entity-aggregation loop in
`_extract_entities_from_claims`. -/
def add_claim_entities (e : Entities) (c : ClaimData) : Entities :=
  when_step (c.whereRefs.foldl where_step (c.who.foldl who_step e)) c.when

/-- `EnhancedSemanticAnalyzer._extract_entities_from_claims`. -/
def extract_entities_from_claims (claims : List ClaimData) : Entities :=
  claims.foldl add_claim_entities Entities.empty

/-- The pure core of `extract_enhanced_claims` after the LLM call: run the
gatekeeper, then aggregate entities from the admitted claims only.
Returns `(claims, excluded_claims, entities)`. -/
def extract_claims_core (all_claims : List ClaimData) :
    List ClaimData × List ClaimData × Entities :=
  let p := run_gatekeeper all_claims
  (p.1, p.2, extract_entities_from_claims p.1)

/-- `EnhancedSemanticAnalyzer._claim_id(text, url, version)`:
`"clm_" + sha256(f"{version}|{url}|{text}")[:16]`. -/
def claim_id (text url version : String) : String :=
  "clm_" ++ str_take (sha256hex (utf8Bytes (version ++ "|" ++ url ++ "|" ++ text))) 16

/-- `EnhancedSemanticAnalyzer._normalize_when`. -/
def normalize_when (w : WhenData) (reported_time_iso : String) : WhenData :=
  let d := if truthy w.date then w.date else none
  let t := if truthy w.time then w.time else none
  let base : WhenData :=
    { date := d
      time := t
      precision := if truthy w.precision then w.precision else some "approximate"
      event_time := if truthy w.event_time then w.event_time else none
      temporal_context := if truthy w.temporal_context then w.temporal_context else none
      reported_time := some reported_time_iso
      event_time_iso := none }
  if d.isSome && t.isSome then
    { base with event_time_iso := some (d.getD "" ++ "T" ++ t.getD "" ++ "Z") }
  else base

/-- Confidence coercion in `_normalize_claims`: out-of-range values become
0.7, then the value is clamped to `[0, 0.99]` and rounded to 3 decimals. -/
def normalize_confidence (c : ℚ) : ℚ :=
  let c1 := if c < 0 ∨ 1 < c then mkRat 7 10 else c
  round3 (min (max c1 0) (mkRat 99 100))

/-- The per-claim body of the `_normalize_claims` loop: deterministic id,
canonical `when` shape, calibrated confidence.  `current_time_iso` is the
extraction wall-clock time. -/
def normalize_one (url current_time_iso : String) (c : ClaimData) : ClaimData :=
  let c1 := { c with id := claim_id c.text url "1.0" }
  let c2 :=
    match c1.when with
    | some w => { c1 with «when» := some (normalize_when w current_time_iso) }
    | none => c1
  { c2 with confidence := normalize_confidence c.confidence }

/-- `EnhancedSemanticAnalyzer._normalize_claims`. -/
def normalize_claims (claims : List ClaimData) (url : String)
    (current_time_iso : String) : List ClaimData :=
  claims.map (normalize_one url current_time_iso)

/-! ## Content validator (`services/content_validator.py`)

`validate_extraction` is modelled over the raw `content_text` plus an
oracle `upstream : Except String LLMJson` for the outcome the GPT call
would have (`.error` = any exception in the `try` block).  The regex
fallback author extractor `_extract_author_fallback` only feeds the
`no_author` flag and the `author` metadata field, which no claim
inspects, so it is threaded through as an explicit function argument
`fallback` and all theorems quantify over it. -/

/-- The `cleaned_metadata` dict (only the `author` key is ever read back). -/
structure CleanedMeta where
  author : Option String
deriving DecidableEq

/-- Shape of the upstream model's JSON reply. -/
structure LLMJson where
  is_valid : Option Bool := none
  reason : Option String := none
  flags : List String := []
  cleaned_metadata : CleanedMeta := ⟨none⟩
  cleaned_content : Option String := none
deriving DecidableEq

structure ValidationResult where
  is_valid : Bool
  reason : String
  cleaned_data : CleanedMeta
  cleaned_content : String
  flags : List String
deriving DecidableEq

/-- The fixed paywall-keyword list of `_verify_and_add_flags`. -/
def paywall_patterns : List String :=
  ["subscribe", "subscription", "sign in to read", "sign in to continue",
   "become a member", "premium content", "member-only", "subscribers only",
   "unlock this article", "create a free account", "register to read",
   "see subscription options", "enjoy unlimited access", "subscriber exclusive"]

/-- Python `cleaned_metadata.get("author") and author not in [None, "", "N/A", "null"]`. -/
def has_author_value : Option String → Bool
  | none => false
  | some s => !s.isEmpty && !(s == "N/A") && !(s == "null")

/-- Check 1 of `_verify_and_add_flags`: force-add `short_content` when
the cleaned text has fewer than 300 words. -/
def check1_short (wc : Nat) (flags : List String) : List String :=
  if wc < 300 && !flags.contains "short_content" then flags ++ ["short_content"]
  else flags

/-- Check 2 of `_verify_and_add_flags`: force-add `paywall_detected` when
the lower-cased combined text contains a paywall keyword. -/
def check2_paywall (content_lower : String) (flags : List String) : List String :=
  if paywall_patterns.any (fun p => str_contains content_lower p) &&
      !flags.contains "paywall_detected" then
    flags ++ ["paywall_detected"]
  else flags

/-- Check 3 of `_verify_and_add_flags`: when no author is present, try
the fallback extractor before adding `no_author`. -/
def check3_author (fallback : String → String) (original_content : String)
    (author : Option String) (flags : List String) : List String :=
  if !has_author_value author then
    if !(fallback original_content).isEmpty then flags
    else if !flags.contains "no_author" then flags ++ ["no_author"] else flags
  else flags

/-- Check 4 of `_verify_and_add_flags`: add `empty_content` when the
cleaned text has fewer than 50 words. -/
def check4_empty (wc : Nat) (flags : List String) : List String :=
  if wc < 50 && !flags.contains "empty_content" then flags ++ ["empty_content"]
  else flags

/-- `ContentValidator._verify_and_add_flags`: deterministic verification
pass over the upstream flags, running the four checks in source order. -/
def verify_and_add_flags (fallback : String → String) (llm_flags : List String)
    (cleaned_content original_content : String) (author : Option String) :
    List String :=
  let wc := word_count cleaned_content
  let content_lower := lower_str (original_content ++ " " ++ cleaned_content)
  check4_empty wc
    (check3_author fallback original_content author
      (check2_paywall content_lower
        (check1_short wc llm_flags)))

/-- The in-place `cleaned_metadata["author"]` update performed by
`_verify_and_add_flags` when the fallback extractor succeeds. -/
def updated_author (fallback : String → String) (original_content : String)
    (author : Option String) : Option String :=
  if has_author_value author then author
  else if !(fallback original_content).isEmpty then some (fallback original_content)
  else author

/-- The fast-path guard of `validate_extraction`: Python
`not content_text or len(content_text.strip()) < 50`. -/
def fast_path (content_text : String) : Bool :=
  content_text.isEmpty || (strip_chars content_text.data).length < 50

/-- `ContentValidator.validate_extraction`. -/
def validate_extraction (fallback : String → String) (content_text : String)
    (upstream : Except String LLMJson) : ValidationResult :=
  if fast_path content_text then
    { is_valid := true
      reason := "Content too short or empty"
      cleaned_data := ⟨none⟩
      cleaned_content := ""
      flags := ["short_content", "empty_content"] }
  else
    match upstream with
    | .error e =>
      { is_valid := true
        reason := "Validation skipped due to error: " ++ e
        cleaned_data := ⟨none⟩
        cleaned_content := ""
        flags := ["validation_error"] }
    | .ok j =>
      let cleaned := j.cleaned_content.getD ""
      { is_valid := j.is_valid.getD true
        reason := j.reason.getD ""
        cleaned_data := ⟨updated_author fallback content_text j.cleaned_metadata.author⟩
        cleaned_content := cleaned
        flags := verify_and_add_flags fallback j.flags cleaned content_text
          j.cleaned_metadata.author }

/-! ## Entity resolver (`services/entity_resolver.py`)

`_deduplicate_entities` greedily clusters raw mentions per entity type
with `rapidfuzz.fuzz.ratio` (normalized InDel similarity:
`100·(1 − dist/(|a|+|b|)) = 200·lcs(a,b)/(|a|+|b|)`) at an 85 threshold.
The Python `by_type` dict of lists is modelled as the order-preserving
filter on the label. -/

/-- A raw extracted mention (`{text, label, context}`). -/
structure Mention where
  text : String
  label : String
  context : Option String := none
deriving DecidableEq

/-- One row step of the longest-common-subsequence dynamic program. -/
def lcs_next (x : Char) : List Char → List Nat → Nat → List Nat
  | y :: ys, p0 :: p1 :: ps, c =>
    let c2 := if x == y then p0 + 1 else max c p1
    c2 :: lcs_next x ys (p1 :: ps) c2
  | _, _, _ => []

/-- Longest common subsequence length. -/
def lcs (a b : List Char) : Nat :=
  (a.foldl (fun row x => 0 :: lcs_next x b row 0) (List.replicate (b.length + 1) 0)).getLastD 0

/-- `rapidfuzz.fuzz.ratio`: normalized InDel similarity in `[0, 100]`. -/
def fuzz_ratio (s1 s2 : String) : ℚ :=
  let a := s1.data
  let b := s2.data
  if a.length + b.length = 0 then 100
  else mkRat (200 * lcs a b) (a.length + b.length)

/-- The case-insensitive similarity used in `_deduplicate_entities`:
`fuzz.ratio(ent1['text'].lower(), ent2['text'].lower())`. -/
def mention_similarity (t1 t2 : String) : ℚ :=
  fuzz_ratio (lower_str t1) (lower_str t2)

/-- `ResolvedEntity` as produced by deduplication (the Wikidata-linking
fields are populated by a later stage outside these claims). -/
structure ResolvedEntityM where
  canonical_name : String
  canonical_id : String
  entity_type : String
  mentions : List String
  confidence : ℚ
  context : Option String
deriving DecidableEq

/-- `EntityResolver._choose_canonical_name`:
`sorted(mentions, key=len, reverse=True)[0]` — the stable sort makes this
the first mention of maximal length. -/
def choose_canonical_name (ms : List String) : String :=
  match ms with
  | [] => ""
  | m :: rest => rest.foldl (fun best x => if best.length < x.length then x else best) m

/-- `EntityResolver._generate_entity_id`:
`lower(type) + "_" + md5(f"{type}:{name.lower().strip()}")[:8]`. -/
def generate_entity_id (name entity_type : String) : String :=
  let normalized := strip_str (lower_str name)
  lower_str entity_type ++ "_" ++
    str_take (md5hex (utf8Bytes (entity_type ++ ":" ++ normalized))) 8

/-- Build the canonical entity for one greedy cluster (seed `e` plus its
matched mentions).  Python stores `list(set(mentions))`, an unordered
dedup, modelled by `List.dedup`; canonical name and the ≥2-mentions
confidence rule use the raw mention list, as in the source. -/
def mk_entity (e : Mention) (matched : List Mention) : ResolvedEntityM :=
  let mentions := e.text :: matched.map (fun m => m.text)
  let canonical_name := choose_canonical_name mentions
  { canonical_name := canonical_name
    canonical_id := generate_entity_id canonical_name e.label
    entity_type := e.label
    mentions := mentions.dedup
    confidence := if 1 < mentions.length then 1 else mkRat 7 10
    context := if truthy e.context then e.context else none }

/-- The greedy clustering loop of `_deduplicate_entities` within one
entity type, with an explicit fuel bound (the loop consumes at least one
mention per cluster, so `fuel = length` suffices): the first unused
mention seeds a cluster and absorbs every later unused mention whose
similarity to the seed is ≥ 85; clustering then continues on the
remaining (unabsorbed) mentions. -/
def dedup_group_fuel : Nat → List Mention → List ResolvedEntityM
  | _, [] => []
  | 0, _ :: _ => []
  | fuel + 1, e :: rest =>
    mk_entity e (rest.filter (fun e2 => 85 ≤ mention_similarity e.text e2.text)) ::
      dedup_group_fuel fuel
        (rest.filter (fun e2 => ¬ 85 ≤ mention_similarity e.text e2.text))

/-- The clustering loop at its natural fuel. -/
def dedup_group (l : List Mention) : List ResolvedEntityM :=
  dedup_group_fuel l.length l

/-- `EntityResolver._deduplicate_entities`, viewed at one entity type:
the value the returned dict holds at key `label`. -/
def deduplicate_entities (entities_raw : List Mention) (label : String) :
    List ResolvedEntityM :=
  dedup_group (entities_raw.filter (fun m => m.label == label))

/-! ## HTTP handlers (`server.py`)

Python attribute access is partial: looking up a name that a class does
not define raises `AttributeError`.  Both handlers are modelled in
`Except PyErr`. -/

inductive PyErr where
  | attributeError
deriving DecidableEq

/-- The members of the `TaskStatus` enum in `services/task_store.py`. -/
def task_status_members : List (String × String) :=
  [("PENDING", "pending"), ("PROCESSING", "processing"),
   ("COMPLETED", "completed"), ("FAILED", "failed")]

/-- `TaskStatus.<name>`: enum member access, `AttributeError` on a
missing member. -/
def task_status_attr (name : String) : Except PyErr String :=
  match (task_status_members.filter (fun p => p.1 == name)).head? with
  | some p => .ok p.2
  | none => .error .attributeError

/-- The task fields `get_task_status` reads. -/
structure TaskRec where
  task_id : String
  url : String
  status : String
  current_stage : String
  error : Option String
deriving DecidableEq

/-- The response fields of `get_task_status` that the claims inspect
(`result`/`semantic_data`/`blocked` payloads are collapsed into
`result_included`). -/
structure StatusResponse where
  task_id : String
  url : String
  status : String
  current_stage : String
  result_included : Bool
  error : Option String
deriving DecidableEq

/-- The `/api/task/{task_id}` handler `get_task_status`, for a stored
task: builds the base response, then branches on
`TaskStatus.COMPLETED` / `TaskStatus.BLOCKED` / `TaskStatus.FAILED` in
that order, each enum access evaluated lazily as in the Python
`if`/`elif` chain. -/
def get_task_status (t : TaskRec) : Except PyErr StatusResponse := do
  let base : StatusResponse :=
    { task_id := t.task_id, url := t.url, status := t.status,
      current_stage := t.current_stage, result_included := false, error := none }
  let completed ← task_status_attr "COMPLETED"
  if t.status == completed then
    pure { base with result_included := true }
  else do
    let blocked ← task_status_attr "BLOCKED"
    if t.status == blocked then
      pure { base with result_included := true, error := t.error }
    else do
      let failed ← task_status_attr "FAILED"
      if t.status == failed then pure { base with error := t.error }
      else pure base

/-- The methods the `TaskStore` class defines
(`services/task_store.py`). -/
def task_store_methods : List String :=
  ["__init__", "create_task", "get_task", "update_task_status",
   "set_task_result", "set_task_error", "set_semantic_data",
   "set_gcs_paths", "add_token_cost", "update_result_field", "list_tasks"]

/-- Attribute lookup on the `task_store` instance. -/
def task_store_attr (name : String) : Except PyErr Unit :=
  if task_store_methods.contains name then .ok () else .error .attributeError

structure CheckResponse where
  cache_hit : Bool
  message : Option String
deriving DecidableEq

/-- The `/api/check` handler `check_cached_url`: its first step resolves
`task_store.find_recent_task_by_url`.  `TaskStore` defines no such
method, so execution never reaches the rest of the handler; the
continuation below is dead code standing in for the remaining body. -/
def check_cached_url (url : String) : Except PyErr CheckResponse := do
  let _ ← task_store_attr "find_recent_task_by_url"
  let _ := url
  pure { cache_hit := false, message := some "No cached result available" }


/-! ## Spec-side reference definitions

These are written from the specification's wording rather than from the
source, and the refinement theorems compare them with the source
embeddings above. -/

/-- The spec's admission criteria downstream of attribution (claim C3):
a (non-empty) `when.date`, a valid modality, non-empty evidence, no
hedge word in the lower-cased text, criminal-act terms only under
`official_fact`, and confidence at least 0.65. -/
def spec_admits (c : ClaimData) : Prop :=
  truthy (c.when.bind (fun w => w.date)) = true ∧
  c.modality ∈ valid_modalities ∧
  c.evidence_references ≠ [] ∧
  (∀ h ∈ hedging_terms, ¬ str_contains (lower_str c.text) h = true) ∧
  ((∀ t ∈ criminal_terms, ¬ str_contains (lower_str c.text) t = true) ∨
    c.modality = "official_fact") ∧
  mkRat 13 20 ≤ c.confidence

/-- The spec's expected exclusion reason: the first failing check in the
order temporal, modality, evidence, hedging, controversy, confidence
(attribution having passed), or `""` when all pass. -/
def spec_first_reason (c : ClaimData) : String :=
  if ¬ truthy (c.when.bind (fun w => w.date)) = true then
    "Temporal: Missing event time (WHEN)"
  else if c.modality ∉ valid_modalities then
    "Modality: Not specified or invalid"
  else if c.evidence_references = [] then
    "Evidence: No artifacts referenced"
  else if ∃ h ∈ hedging_terms, str_contains (lower_str c.text) h = true then
    "Hedging: Vague language without proper attribution"
  else if (∃ t ∈ criminal_terms, str_contains (lower_str c.text) t = true) ∧
      c.modality ≠ "official_fact" then
    "Controversy: Criminal implication requires official_fact modality"
  else if c.confidence < mkRat 13 20 then
    "Confidence: Below threshold (" ++ fmt2 c.confidence ++ " < 0.65)"
  else ""

/-- A claim contributes a person name to the aggregate through a
`PERSON:`-prefixed `who` entry. -/
def contributes_person (c : ClaimData) (p : String) : Prop :=
  ∃ w ∈ c.who, starts_with w "PERSON:" = true ∧ p = str_drop w 7

/-- A claim contributes an organization name through an `ORG:`-prefixed
`who` entry. -/
def contributes_org (c : ClaimData) (o : String) : Prop :=
  ∃ w ∈ c.who, ¬ starts_with w "PERSON:" = true ∧ starts_with w "ORG:" = true ∧
    o = str_drop w 4

/-- A claim contributes a location name through a `where` entry. -/
def contributes_location (c : ClaimData) (l : String) : Prop :=
  ∃ wh ∈ c.whereRefs, l = loc_name wh

/-- A claim contributes a time reference through its `when` fields. -/
def contributes_time (c : ClaimData) (t : String) : Prop :=
  ∃ w, c.when = some w ∧
    ((truthy w.date = true ∧ t = w.date.getD "") ∨
     (truthy w.event_time = true ∧ t = w.event_time.getD "") ∨
     (truthy w.temporal_context = true ∧ t = w.temporal_context.getD ""))

/-! ## Concrete instances used by witnesses and counterexamples -/

/-- Scenario-4-style claim: fully attributable, admitted. -/
def jane_claim : ClaimData :=
  { text := "Jane Doe attended the event"
    who := ["PERSON:Jane Doe"]
    «when» := some { date := some "2025-10-19" }
    modality := "reported_claim"
    evidence_references := ["statement"]
    confidence := mkRat 9 10 }

/-- Scenario-3-style claim: identical but with the hedge word. -/
def hedged_claim : ClaimData :=
  { text := "Jane Doe reportedly attended the event"
    who := ["PERSON:Jane Doe"]
    «when» := some { date := some "2025-10-19" }
    modality := "reported_claim"
    evidence_references := ["statement"]
    confidence := mkRat 9 10 }

/-- A claim whose only `who` entry is typed, but neither `PERSON:` nor
`ORG:`. -/
def gpe_claim : ClaimData :=
  { text := "the mayor attended the event"
    who := ["GPE:Springfield"]
    «when» := some { date := some "2025-10-19" }
    modality := "reported_claim"
    evidence_references := ["statement"]
    confidence := mkRat 9 10 }

/-- A claim with no typed `who` entry at all. -/
def unsourced_claim : ClaimData :=
  { text := "something happened"
    who := ["they"]
    «when» := some { date := some "2025-10-19" }
    modality := "reported_claim"
    evidence_references := ["statement"]
    confidence := mkRat 9 10 }

/-- A claim the gatekeeper excludes (confidence below the floor). -/
def low_confidence_claim : ClaimData :=
  { text := "the budget was approved"
    who := ["ORG:City Council"]
    «when» := some { date := some "2025-10-19" }
    modality := "reported_claim"
    evidence_references := ["document"]
    confidence := mkRat 1 2 }

/-- Raw content longer than 50 characters (past the validator fast path). -/
def long_content : String :=
  "This article text is certainly longer than fifty characters in total."

/-- A freshly created task as `create_task` writes it. -/
def pending_task : TaskRec :=
  { task_id := "t1", url := "https://example.com/a", status := "pending",
    current_stage := "pending", error := none }

/-- Three same-type mentions: the second is ≥85% similar to both others,
the third only to the second. -/
def mention_a : Mention := { text := "aaaaaaaaaa", label := "PERSON" }

def mention_b : Mention := { text := "aaaaaaaaaabbb", label := "PERSON" }

def mention_c : Mention := { text := "aaaaaaaaaabbbbbb", label := "PERSON" }

/-! ## Claim C1 -/

/-- Claim C1, counterexample: a task at stage `resolution` receiving an
`update_task_status` for the earlier stage `extraction` does not keep its
record unchanged — `current_stage` is overwritten with the earlier stage. -/
theorem C1_counterexample :
    update_task_status
        { status := "processing", current_stage := "resolution",
          completed_at := none, updated_at := 0 }
        "processing" (some "extraction") "2025-10-12T00:00:00" 1 ≠
      { status := "processing", current_stage := "resolution",
        completed_at := none, updated_at := 0 } ∧
    (update_task_status
        { status := "processing", current_stage := "resolution",
          completed_at := none, updated_at := 0 }
        "processing" (some "extraction") "2025-10-12T00:00:00" 1).current_stage =
      "extraction" ∧
    stage_index "extraction" < stage_index "resolution" := by
  decide

/-- Claim C1, amended: `update_task_status` enforces no stage order — it
overwrites `current_stage` with any non-empty requested stage (even one
at or behind the current stage) and leaves it unchanged only when no
stage is supplied; the status is always applied. -/
theorem C1_theorem (t : TaskDoc) (status : String) (stage : Option String)
    (now : String) (ts : Nat) :
    (update_task_status t status stage now ts).current_stage =
      (match stage with
       | none => t.current_stage
       | some s => if s.isEmpty then t.current_stage else s) ∧
    (update_task_status t status stage now ts).status = status := by
  cases stage <;>
    simp only [update_task_status] <;>
    split <;> simp_all <;> split <;> simp_all

/-! ## Claim C10 -/

/-- Claim C10: `check_cached_url` resolves the nonexistent
`TaskStore.find_recent_task_by_url` before producing any response, so it
raises `AttributeError` for every URL and in particular can never answer
with `cache_hit = true`. -/
theorem C10_theorem (url : String) :
    check_cached_url url = Except.error PyErr.attributeError ∧
    ∀ r : CheckResponse, ¬ (check_cached_url url = Except.ok r ∧ r.cache_hit = true) := by
  refine ⟨rfl, ?_⟩
  rintro r ⟨h, -⟩
  simp [check_cached_url, task_store_attr, task_store_methods, Except.bind] at h

/-- Claim C10, witness at a concrete URL. -/
theorem C10_witness :
    check_cached_url "https://example.com/a" = Except.error PyErr.attributeError :=
  ( C10_theorem "https://example.com/a").1

/-! ## Claim C6 -/

/-- Claim C6 (code bug): for any stored task whose status is not
`completed`, the `elif` chain of `get_task_status` evaluates
`TaskStatus.BLOCKED`, a member the enum does not define, so the handler
raises `AttributeError` instead of returning a response. -/
theorem C6_theorem (t : TaskRec) (h : t.status ≠ "completed") :
    get_task_status t = Except.error PyErr.attributeError := by
  simp [get_task_status, task_status_attr, task_status_members, bind,
    Except.bind, h]

/-- Claim C6, witness: polling a freshly created (`pending`) task raises. -/
theorem C6_witness :
    get_task_status pending_task = Except.error PyErr.attributeError :=
  C6_theorem pending_task (by decide)

/-! ## Claim C9 -/

/-- The id assigned by normalization depends only on the claim text and
url, not on the wall-clock timestamp. -/
lemma normalize_one_id (url now : String) (c : ClaimData) :
    (normalize_one url now c).id = claim_id c.text url "1.0" := by
  obtain ⟨i, tx, wh, wr, w, m, ev, cf, ex⟩ := c
  cases w <;> rfl

lemma normalize_one_text (url now : String) (c : ClaimData) :
    (normalize_one url now c).text = c.text := by
  obtain ⟨i, tx, wh, wr, w, m, ev, cf, ex⟩ := c
  cases w <;> rfl

lemma map_id_normalize (claims : List ClaimData) (url now : String) :
    (normalize_claims claims url now).map (fun c => c.id) =
      claims.map (fun c => claim_id c.text url "1.0") := by
  induction claims with
  | nil => rfl
  | cons c rest ih =>
    simp only [normalize_claims, List.map_cons] at ih ⊢
    rw [normalize_one_id]
    exact congrArg _ ih

/-- Claim C9: claim ids produced by `_normalize_claims` are a pure
function of `(schema version, source url, claim text)` — two runs at
different wall-clock times assign identical ids, and each id is
`"clm_"` followed by the first 16 hex digits of the SHA-256 of
`"version|url|text"`. -/
theorem C9_theorem (claims : List ClaimData) (url now1 now2 : String) :
    (normalize_claims claims url now1).map (fun c => c.id) =
      (normalize_claims claims url now2).map (fun c => c.id) ∧
    ∀ c ∈ normalize_claims claims url now1,
      c.id = "clm_" ++
        str_take (sha256hex (utf8Bytes ("1.0" ++ "|" ++ url ++ "|" ++ c.text))) 16 := by
  constructor
  · rw [map_id_normalize, map_id_normalize]
  · intro c hc
    obtain ⟨a, _, rfl⟩ := List.mem_map.mp hc
    rw [normalize_one_id, normalize_one_text]
    rfl

/-- Claim C9, witness at a concrete claim and url. -/
theorem C9_witness :
    (normalize_one "https://example.com/a" "2025-01-01T00:00:00" jane_claim).id =
      "clm_" ++ str_take (sha256hex (utf8Bytes ("1.0" ++ "|" ++ "https://example.com/a" ++ "|" ++
        (normalize_one "https://example.com/a" "2025-01-01T00:00:00" jane_claim).text))) 16 :=
  (C9_theorem [jane_claim] "https://example.com/a" "2025-01-01T00:00:00"
    "2099-12-31T23:59:59").2 _ (List.mem_singleton.mpr rfl)

/-! ## Claim C4 -/

/-- Claim C4, counterexample: with content past the fast path and an
upstream JSON that sets `is_valid` to `false`, `validate_extraction`
returns `is_valid = false` — the upstream verdict is passed through, not
forced to `true`. -/
theorem C4_counterexample :
    (validate_extraction (fun _ => "") long_content
      (Except.ok { is_valid := some false, reason := some "incoherent",
                   flags := [], cleaned_metadata := ⟨some "Jane Doe"⟩,
                   cleaned_content := some "body" })).is_valid = false := by
  rfl

/-- Claim C4, amended: `validate_extraction` returns `is_valid = true` on
the short-content fast path and on any upstream error (the latter with
empty cleaned fields and the single flag `validation_error`); otherwise
it passes through the upstream JSON's `is_valid` (defaulting to `true`
when absent), so the result is invalid exactly when the upstream
response explicitly marked it so. -/
theorem C4_theorem (fallback : String → String) (content_text : String)
    (upstream : Except String LLMJson) :
    ((validate_extraction fallback content_text upstream).is_valid = false ↔
      (fast_path content_text = false ∧
        ∃ j, upstream = Except.ok j ∧ j.is_valid = some false)) ∧
    (fast_path content_text = false → ∀ e,
      validate_extraction fallback content_text (Except.error e) =
        { is_valid := true
          reason := "Validation skipped due to error: " ++ e
          cleaned_data := ⟨none⟩
          cleaned_content := ""
          flags := ["validation_error"] }) := by
  constructor
  · cases hf : fast_path content_text with
    | true => simp [validate_extraction, hf]
    | false =>
      cases upstream with
      | error e => simp [validate_extraction, hf]
      | ok j =>
        cases hv : j.is_valid with
        | none => simp [validate_extraction, hf, hv]
        | some b => cases b <;> simp [validate_extraction, hf, hv]
  · intro hf e
    simp [validate_extraction, hf]

/-- Claim C4, witness for the upstream-error branch of the amended claim. -/
theorem C4_witness :
    validate_extraction (fun _ => "") long_content (Except.error "boom") =
      { is_valid := true
        reason := "Validation skipped due to error: " ++ "boom"
        cleaned_data := ⟨none⟩
        cleaned_content := ""
        flags := ["validation_error"] } :=
  (C4_theorem (fun _ => "") long_content (Except.error "boom")).2 (by decide) "boom"

/-! ## Claim C7 -/

lemma mem_of_contains_str {l : List String} {s : String}
    (h : l.contains s = true) : s ∈ l := by
  simpa using h

lemma mem_ite_append {c : Prop} [Decidable c] {l : List String} {x y : String}
    (h : x ∈ l) : x ∈ if c then l ++ [y] else l := by
  split <;> simp [h]

lemma mem_check1_of_mem {x : String} {wc : Nat} {flags : List String}
    (h : x ∈ flags) : x ∈ check1_short wc flags := by
  unfold check1_short
  exact mem_ite_append h

lemma mem_check2_of_mem {x : String} {cl : String} {flags : List String}
    (h : x ∈ flags) : x ∈ check2_paywall cl flags := by
  unfold check2_paywall
  exact mem_ite_append h

lemma mem_check3_of_mem {x : String} {fallback : String → String}
    {original : String} {author : Option String} {flags : List String}
    (h : x ∈ flags) : x ∈ check3_author fallback original author flags := by
  unfold check3_author
  split
  · split
    · exact h
    · exact mem_ite_append h
  · exact h

lemma short_mem_check1 {wc : Nat} {flags : List String} (h : wc < 300) :
    "short_content" ∈ check1_short wc flags := by
  unfold check1_short
  split
  · exact List.mem_append_right _ (List.mem_singleton.mpr rfl)
  · next hcond =>
    cases hcb : flags.contains "short_content" with
    | true => exact mem_of_contains_str hcb
    | false => exact absurd (by rw [hcb]; simp [h]) hcond

lemma paywall_mem_check2 {cl : String} {flags : List String}
    (h : paywall_patterns.any (fun p => str_contains cl p) = true) :
    "paywall_detected" ∈ check2_paywall cl flags := by
  unfold check2_paywall
  split
  · exact List.mem_append_right _ (List.mem_singleton.mpr rfl)
  · next hcond =>
    cases hcb : flags.contains "paywall_detected" with
    | true => exact mem_of_contains_str hcb
    | false => exact absurd (by rw [hcb]; simp [h]) hcond

lemma empty_mem_check4 {wc : Nat} {flags : List String} (h : wc < 50) :
    "empty_content" ∈ check4_empty wc flags := by
  unfold check4_empty
  split
  · exact List.mem_append_right _ (List.mem_singleton.mpr rfl)
  · next hcond =>
    cases hcb : flags.contains "empty_content" with
    | true => exact mem_of_contains_str hcb
    | false => exact absurd (by rw [hcb]; simp [h]) hcond

lemma mem_check4_of_mem {x : String} {wc : Nat} {flags : List String}
    (h : x ∈ flags) : x ∈ check4_empty wc flags := by
  unfold check4_empty
  exact mem_ite_append h

/-- Claim C7: whatever flags the upstream model proposed, the verified
flag list contains `short_content` whenever the cleaned text has fewer
than 300 words, `paywall_detected` whenever the lower-cased
concatenation of raw and cleaned text contains a paywall keyword, and
`empty_content` whenever the cleaned text has fewer than 50 words. -/
theorem C7_theorem (fallback : String → String) (llm_flags : List String)
    (cleaned_content original_content : String) (author : Option String) :
    (word_count cleaned_content < 300 →
      "short_content" ∈
        verify_and_add_flags fallback llm_flags cleaned_content original_content author) ∧
    (paywall_patterns.any
        (fun p => str_contains (lower_str (original_content ++ " " ++ cleaned_content)) p) = true →
      "paywall_detected" ∈
        verify_and_add_flags fallback llm_flags cleaned_content original_content author) ∧
    (word_count cleaned_content < 50 →
      "empty_content" ∈
        verify_and_add_flags fallback llm_flags cleaned_content original_content author) := by
  unfold verify_and_add_flags
  refine ⟨fun h => ?_, fun h => ?_, fun h => ?_⟩
  · exact mem_check4_of_mem (mem_check3_of_mem (mem_check2_of_mem (short_mem_check1 h)))
  · exact mem_check4_of_mem (mem_check3_of_mem (paywall_mem_check2 h))
  · exact empty_mem_check4 h

/-- Claim C7, witness: a 4-word cleaned text containing a paywall phrase
triggers all three forced flags even with an empty upstream flag list. -/
theorem C7_witness :
    "short_content" ∈ verify_and_add_flags (fun _ => "") []
        "Subscribe to continue reading" "Some raw article text here" (some "Jane Doe") ∧
    "paywall_detected" ∈ verify_and_add_flags (fun _ => "") []
        "Subscribe to continue reading" "Some raw article text here" (some "Jane Doe") ∧
    "empty_content" ∈ verify_and_add_flags (fun _ => "") []
        "Subscribe to continue reading" "Some raw article text here" (some "Jane Doe") :=
  ⟨(C7_theorem (fun _ => "") [] "Subscribe to continue reading"
      "Some raw article text here" (some "Jane Doe")).1 (by decide),
   (C7_theorem (fun _ => "") [] "Subscribe to continue reading"
      "Some raw article text here" (some "Jane Doe")).2.1 (by decide),
   (C7_theorem (fun _ => "") [] "Subscribe to continue reading"
      "Some raw article text here" (some "Jane Doe")).2.2 (by decide)⟩

/-! ## Claim C2 -/

/-- Unfolding equation for the gatekeeper loop. -/
lemma run_gatekeeper_cons (c : ClaimData) (rest : List ClaimData) :
    run_gatekeeper (c :: rest) =
      if (passes_claim_premises c).1 then
        (c :: (run_gatekeeper rest).1, (run_gatekeeper rest).2)
      else
        ((run_gatekeeper rest).1,
          { c with excluded_reason := some (passes_claim_premises c).2 } ::
            (run_gatekeeper rest).2) := rfl

/-- When no `who` entry carries a colon (or `who` is empty), the first
gatekeeper check fires. -/
lemma passes_no_source {c : ClaimData}
    (h : (c.who.isEmpty || c.who.all (fun w => !has_colon w)) = true) :
    passes_claim_premises c = (false, "Attribution: No named source (WHO)") := by
  unfold passes_claim_premises
  rw [if_pos h]

/-- An admitted claim got past the attribution check. -/
lemma attribution_of_admitted {c : ClaimData}
    (h : (passes_claim_premises c).1 = true) :
    (c.who.isEmpty || c.who.all (fun w => !has_colon w)) = false := by
  cases hcond : (c.who.isEmpty || c.who.all fun w => !has_colon w)
  · rfl
  · rw [passes_no_source hcond] at h
    cases h

/-- From a failed `all` check, extract a colon-carrying entry. -/
lemma exists_colon_of_attribution {c : ClaimData}
    (h : (c.who.isEmpty || c.who.all (fun w => !has_colon w)) = false) :
    ∃ w ∈ c.who, has_colon w = true := by
  have hall : c.who.all (fun w => !has_colon w) = false := by
    cases hba : c.who.all (fun w => !has_colon w)
    · rfl
    · simp [hba] at h
  have : ¬ ∀ w ∈ c.who, (!has_colon w) = true := by
    intro hforall
    rw [List.all_eq_true.mpr hforall] at hall
    cases hall
  push_neg at this
  obtain ⟨w, hw, hnc⟩ := this
  refine ⟨w, hw, ?_⟩
  cases hcw : has_colon w
  · rw [hcw] at hnc
    exact absurd rfl hnc
  · rfl

/-- Claim C2, counterexample: a claim whose single `who` entry is
`"GPE:Springfield"` has no `PERSON:`/`ORG:` prefix, yet the gatekeeper
admits it (the code only tests for the presence of a colon), so it is
not placed in `excludedClaims`. -/
theorem C2_counterexample :
    (∀ w ∈ gpe_claim.who,
      ¬ starts_with w "PERSON:" = true ∧ ¬ starts_with w "ORG:" = true) ∧
    run_gatekeeper [gpe_claim] = ([gpe_claim], []) := by
  constructor
  · decide
  · decide

/-- Claim C2, amended: the attribution check tests only for a colon-typed
`who` entry.  Every claim with no colon in any `who` entry (or an empty
`who`) lands in `excludedClaims` tagged `"Attribution: No named source
(WHO)"`, and conversely every admitted claim has at least one `who`
entry containing a colon — but not necessarily a `PERSON:`/`ORG:` one. -/
theorem C2_theorem (cs : List ClaimData) :
    (∀ c ∈ cs, (c.who.isEmpty || c.who.all (fun w => !has_colon w)) = true →
      { c with excluded_reason := some "Attribution: No named source (WHO)" } ∈
        (run_gatekeeper cs).2) ∧
    (∀ a ∈ (run_gatekeeper cs).1, ∃ w ∈ a.who, has_colon w = true) := by
  induction cs with
  | nil =>
    exact ⟨fun c hc => absurd hc (List.not_mem_nil c),
           fun a ha => absurd ha (List.not_mem_nil a)⟩
  | cons c rest ih =>
    constructor
    · intro d hd hcond
      rcases List.mem_cons.mp hd with rfl | hd'
      · rw [run_gatekeeper_cons, passes_no_source hcond]
        simp
      · rw [run_gatekeeper_cons]
        have hmem := ih.1 d hd' hcond
        split
        · exact hmem
        · exact List.mem_cons_of_mem _ hmem
    · intro a ha
      rw [run_gatekeeper_cons] at ha
      by_cases hpc : (passes_claim_premises c).1 = true
      · rw [if_pos hpc] at ha
        rcases List.mem_cons.mp ha with rfl | ha'
        · exact exists_colon_of_attribution (attribution_of_admitted hpc)
        · exact ih.2 a ha'
      · rw [if_neg hpc] at ha
        exact ih.2 a ha

/-- Claim C2, witness: a claim whose `who` list has no typed entry is
excluded with the attribution reason. -/
theorem C2_witness :
    { unsourced_claim with
        excluded_reason := some "Attribution: No named source (WHO)" } ∈
      (run_gatekeeper [unsourced_claim]).2 :=
  (C2_theorem [unsourced_claim]).1 unsourced_claim
    (List.mem_singleton.mpr rfl) (by decide)

/-! ## Claim C3 -/

/-- A Bool known to be false is not true. -/
lemma ne_true_of_eq_false {b : Bool} (h : b = false) : ¬ b = true := by
  simp [h]

/-- Claim C3: past the attribution check, the gatekeeper admits a claim
exactly when the spec's five remaining criteria hold, and on exclusion
the reason is the one of the first failing check in the spec's order
(temporal, modality, evidence, hedging, controversy, confidence). -/
theorem C3_theorem (c : ClaimData)
    (h : (c.who.isEmpty || c.who.all (fun w => !has_colon w)) = false) :
    ((passes_claim_premises c).1 = true ↔ spec_admits c) ∧
    (passes_claim_premises c).2 = spec_first_reason c := by
  have nb1 : ¬ (c.who.isEmpty || c.who.all fun w => !has_colon w) = true :=
    ne_true_of_eq_false h
  by_cases hT : truthy (c.when.bind fun w => w.date) = true
  case neg =>
    have bT : (!truthy (c.when.bind fun w => w.date)) = true := by
      cases ht : truthy (c.when.bind fun w => w.date)
      · rfl
      · exact absurd ht hT
    have hp : passes_claim_premises c =
        (false, "Temporal: Missing event time (WHEN)") := by
      simp only [passes_claim_premises]
      rw [if_neg nb1, if_pos bT]
    have hs : spec_first_reason c = "Temporal: Missing event time (WHEN)" := by
      unfold spec_first_reason
      rw [if_pos hT]
    rw [hp, hs]
    exact ⟨⟨fun hf => absurd hf (by simp), fun hs' => absurd hs'.1 hT⟩, rfl⟩
  case pos =>
  have bT : (!truthy (c.when.bind fun w => w.date)) = false := by rw [hT]; rfl
  have nb2 := ne_true_of_eq_false bT
  by_cases hM : c.modality ∈ valid_modalities
  case neg =>
    have hcontf : valid_modalities.contains c.modality = false := by
      cases hcm : valid_modalities.contains c.modality
      · rfl
      · exact absurd (mem_of_contains_str hcm) hM
    have bM : (c.modality == "" || !valid_modalities.contains c.modality) = true := by
      rw [hcontf]
      simp
    have hp : passes_claim_premises c =
        (false, "Modality: Not specified or invalid") := by
      simp only [passes_claim_premises]
      rw [if_neg nb1, if_neg nb2, if_pos bM]
    have hs : spec_first_reason c = "Modality: Not specified or invalid" := by
      unfold spec_first_reason
      rw [if_neg (not_not_intro hT), if_pos hM]
    rw [hp, hs]
    exact ⟨⟨fun hf => absurd hf (by simp), fun hs' => absurd hs'.2.1 hM⟩, rfl⟩
  case pos =>
  have hcont : valid_modalities.contains c.modality = true := by simpa using hM
  have hne : c.modality ≠ "" := by
    intro he
    rw [he] at hM
    exact absurd hM (by decide)
  have bM : (c.modality == "" || !valid_modalities.contains c.modality) = false := by
    rw [beq_eq_false_iff_ne.mpr hne, hcont]
    rfl
  have nb3 := ne_true_of_eq_false bM
  by_cases hE : c.evidence_references = []
  case pos =>
    have bE : (c.evidence_references.isEmpty || c.evidence_references.length == 0) = true := by
      rw [hE]
      rfl
    have hp : passes_claim_premises c =
        (false, "Evidence: No artifacts referenced") := by
      simp only [passes_claim_premises]
      rw [if_neg nb1, if_neg nb2, if_neg nb3, if_pos bE]
    have hs : spec_first_reason c = "Evidence: No artifacts referenced" := by
      unfold spec_first_reason
      rw [if_neg (not_not_intro hT), if_neg (not_not_intro hM), if_pos hE]
    rw [hp, hs]
    exact ⟨⟨fun hf => absurd hf (by simp), fun hs' => absurd hE hs'.2.2.1⟩, rfl⟩
  case neg =>
  have bE : (c.evidence_references.isEmpty || c.evidence_references.length == 0) = false := by
    cases hev : c.evidence_references with
    | nil => exact absurd hev hE
    | cons a l => simp
  have nb4 := ne_true_of_eq_false bE
  by_cases hH : ∃ t ∈ hedging_terms, str_contains (lower_str c.text) t = true
  case pos =>
    have bH : (hedging_terms.any fun t => str_contains (lower_str c.text) t) = true := by
      obtain ⟨t, ht, hct⟩ := hH
      exact List.any_eq_true.mpr ⟨t, ht, hct⟩
    have hp : passes_claim_premises c =
        (false, "Hedging: Vague language without proper attribution") := by
      simp only [passes_claim_premises]
      rw [if_neg nb1, if_neg nb2, if_neg nb3, if_neg nb4, if_pos bH]
    have hs : spec_first_reason c =
        "Hedging: Vague language without proper attribution" := by
      unfold spec_first_reason
      rw [if_neg (not_not_intro hT), if_neg (not_not_intro hM), if_neg hE, if_pos hH]
    rw [hp, hs]
    refine ⟨⟨fun hf => absurd hf (by simp), fun hs' => ?_⟩, rfl⟩
    obtain ⟨t, ht, hct⟩ := hH
    exact absurd hct (by simpa using hs'.2.2.2.1 t ht)
  case neg =>
  have bH : (hedging_terms.any fun t => str_contains (lower_str c.text) t) = false := by
    cases hany : (hedging_terms.any fun t => str_contains (lower_str c.text) t)
    · rfl
    · exact absurd (by simpa using List.any_eq_true.mp hany) hH
  have nb5 := ne_true_of_eq_false bH
  by_cases hC : (∃ t ∈ criminal_terms, str_contains (lower_str c.text) t = true) ∧
      c.modality ≠ "official_fact"
  case pos =>
    have bC : ((criminal_terms.any fun t => str_contains (lower_str c.text) t) &&
        !(c.modality == "official_fact")) = true := by
      obtain ⟨⟨t, ht, hct⟩, hmod⟩ := hC
      simp only [Bool.and_eq_true]
      exact ⟨List.any_eq_true.mpr ⟨t, ht, hct⟩, by simp [hmod]⟩
    have hp : passes_claim_premises c =
        (false, "Controversy: Criminal implication requires official_fact modality") := by
      simp only [passes_claim_premises]
      rw [if_neg nb1, if_neg nb2, if_neg nb3, if_neg nb4, if_neg nb5, if_pos bC]
    have hs : spec_first_reason c =
        "Controversy: Criminal implication requires official_fact modality" := by
      unfold spec_first_reason
      rw [if_neg (not_not_intro hT), if_neg (not_not_intro hM), if_neg hE,
        if_neg hH, if_pos hC]
    rw [hp, hs]
    refine ⟨⟨fun hf => absurd hf (by simp), fun hs' => ?_⟩, rfl⟩
    obtain ⟨⟨t, ht, hct⟩, hmod⟩ := hC
    rcases hs'.2.2.2.2.1 with hall | hoff
    · exact absurd hct (by simpa using hall t ht)
    · exact (hmod hoff).elim
  case neg =>
  have bC : ((criminal_terms.any fun t => str_contains (lower_str c.text) t) &&
      !(c.modality == "official_fact")) = false := by
    cases hcc : ((criminal_terms.any fun t => str_contains (lower_str c.text) t) &&
        !(c.modality == "official_fact"))
    · rfl
    · exfalso
      obtain ⟨ha, hb⟩ := (Bool.and_eq_true _ _).mp hcc
      refine hC ⟨by simpa using List.any_eq_true.mp ha, fun he => ?_⟩
      rw [he] at hb
      simp at hb
  have nb6 := ne_true_of_eq_false bC
  by_cases hF : c.confidence < mkRat 13 20
  case pos =>
    have hp : passes_claim_premises c =
        (false, "Confidence: Below threshold (" ++ fmt2 c.confidence ++ " < 0.65)") := by
      simp only [passes_claim_premises]
      rw [if_neg nb1, if_neg nb2, if_neg nb3, if_neg nb4, if_neg nb5, if_neg nb6,
        if_pos hF]
    have hs : spec_first_reason c =
        "Confidence: Below threshold (" ++ fmt2 c.confidence ++ " < 0.65)" := by
      unfold spec_first_reason
      rw [if_neg (not_not_intro hT), if_neg (not_not_intro hM), if_neg hE,
        if_neg hH, if_neg hC, if_pos hF]
    rw [hp, hs]
    exact ⟨⟨fun hf => absurd hf (by simp),
      fun hs' => absurd hs'.2.2.2.2.2 (not_le.mpr hF)⟩, rfl⟩
  case neg =>
    have hp : passes_claim_premises c = (true, "") := by
      simp only [passes_claim_premises]
      rw [if_neg nb1, if_neg nb2, if_neg nb3, if_neg nb4, if_neg nb5, if_neg nb6,
        if_neg hF]
    have hs : spec_first_reason c = "" := by
      unfold spec_first_reason
      rw [if_neg (not_not_intro hT), if_neg (not_not_intro hM), if_neg hE,
        if_neg hH, if_neg hC, if_neg hF]
    rw [hp, hs]
    refine ⟨⟨fun _ => ⟨hT, hM, hE, ?_, ?_, not_lt.mp hF⟩, fun _ => rfl⟩, rfl⟩
    · intro t ht
      cases hct : str_contains (lower_str c.text) t
      · simp
      · exact absurd ⟨t, ht, hct⟩ hH
    · by_cases hmo : c.modality = "official_fact"
      · exact Or.inr hmo
      · refine Or.inl fun t ht => ?_
        cases hct : str_contains (lower_str c.text) t
        · simp
        · exact absurd ⟨⟨t, ht, hct⟩, hmo⟩ hC

/-- Claim C3, witness: the Scenario-3 claim (hedge word "reportedly",
everything else in order) is excluded with the hedging reason, matching
`spec_first_reason`. -/
theorem C3_witness :
    ((passes_claim_premises hedged_claim).1 = true ↔ spec_admits hedged_claim) ∧
    (passes_claim_premises hedged_claim).2 = spec_first_reason hedged_claim :=
  C3_theorem hedged_claim (by decide)

/-! ## Claim C8 -/

lemma run_gatekeeper_fst (cs : List ClaimData) :
    (run_gatekeeper cs).1 = cs.filter (fun c => (passes_claim_premises c).1) := by
  induction cs with
  | nil => rfl
  | cons c rest ih =>
    rw [run_gatekeeper_cons]
    by_cases hpc : (passes_claim_premises c).1 = true
    · rw [if_pos hpc]
      simp [List.filter_cons, hpc, ih]
    · rw [if_neg hpc]
      have hf : (passes_claim_premises c).1 = false := by
        cases hb : (passes_claim_premises c).1
        · rfl
        · exact absurd hb hpc
      simp [List.filter_cons, hf, ih]

lemma who_step_locations (e : Entities) (w : String) :
    (who_step e w).locations = e.locations := by
  unfold who_step
  split
  · rfl
  · split <;> rfl

lemma who_step_time (e : Entities) (w : String) :
    (who_step e w).time_references = e.time_references := by
  unfold who_step
  split
  · rfl
  · split <;> rfl

lemma who_step_people_mem (e : Entities) (w p : String) :
    p ∈ (who_step e w).people ↔
      p ∈ e.people ∨ (starts_with w "PERSON:" = true ∧ p = str_drop w 7) := by
  unfold who_step
  split
  · next hps => simp [hps, Finset.mem_insert]; tauto
  · next hps =>
    split
    · simp [hps]
    · simp [hps]

lemma who_step_orgs_mem (e : Entities) (w o : String) :
    o ∈ (who_step e w).organizations ↔
      o ∈ e.organizations ∨
        (¬ starts_with w "PERSON:" = true ∧ starts_with w "ORG:" = true ∧
          o = str_drop w 4) := by
  unfold who_step
  split
  · next hps => simp [hps]
  · next hps =>
    split
    · next ho => simp [hps, ho, Finset.mem_insert]; tauto
    · next ho => simp [hps, ho]

lemma who_fold_people (who : List String) (e : Entities) (p : String) :
    p ∈ (who.foldl who_step e).people ↔
      p ∈ e.people ∨ ∃ w ∈ who, starts_with w "PERSON:" = true ∧ p = str_drop w 7 := by
  induction who generalizing e with
  | nil => simp
  | cons w rest ih =>
    simp only [List.foldl_cons, ih, who_step_people_mem, List.mem_cons,
      exists_eq_or_imp, or_assoc]

lemma who_fold_orgs (who : List String) (e : Entities) (o : String) :
    o ∈ (who.foldl who_step e).organizations ↔
      o ∈ e.organizations ∨ ∃ w ∈ who,
        ¬ starts_with w "PERSON:" = true ∧ starts_with w "ORG:" = true ∧
          o = str_drop w 4 := by
  induction who generalizing e with
  | nil => simp
  | cons w rest ih =>
    simp only [List.foldl_cons, ih, who_step_orgs_mem, List.mem_cons,
      exists_eq_or_imp, or_assoc]

lemma who_fold_locations (who : List String) (e : Entities) :
    (who.foldl who_step e).locations = e.locations := by
  induction who generalizing e with
  | nil => rfl
  | cons w rest ih => rw [List.foldl_cons, ih, who_step_locations]

lemma who_fold_time (who : List String) (e : Entities) :
    (who.foldl who_step e).time_references = e.time_references := by
  induction who generalizing e with
  | nil => rfl
  | cons w rest ih => rw [List.foldl_cons, ih, who_step_time]

lemma where_step_people (e : Entities) (wh : String) :
    (where_step e wh).people = e.people := rfl

lemma where_step_orgs (e : Entities) (wh : String) :
    (where_step e wh).organizations = e.organizations := rfl

lemma where_step_time (e : Entities) (wh : String) :
    (where_step e wh).time_references = e.time_references := rfl

lemma where_fold_people (whs : List String) (e : Entities) :
    (whs.foldl where_step e).people = e.people := by
  induction whs generalizing e with
  | nil => rfl
  | cons wh rest ih => rw [List.foldl_cons, ih, where_step_people]

lemma where_fold_orgs (whs : List String) (e : Entities) :
    (whs.foldl where_step e).organizations = e.organizations := by
  induction whs generalizing e with
  | nil => rfl
  | cons wh rest ih => rw [List.foldl_cons, ih, where_step_orgs]

lemma where_fold_time (whs : List String) (e : Entities) :
    (whs.foldl where_step e).time_references = e.time_references := by
  induction whs generalizing e with
  | nil => rfl
  | cons wh rest ih => rw [List.foldl_cons, ih, where_step_time]

lemma where_fold_locations (whs : List String) (e : Entities) (l : String) :
    l ∈ (whs.foldl where_step e).locations ↔
      l ∈ e.locations ∨ ∃ wh ∈ whs, l = loc_name wh := by
  induction whs generalizing e with
  | nil => simp
  | cons wh rest ih =>
    simp only [List.foldl_cons, ih, where_step, Finset.mem_insert, List.mem_cons,
      exists_eq_or_imp, or_assoc]
    tauto

lemma when_step_people (e : Entities) (ow : Option WhenData) :
    (when_step e ow).people = e.people := by
  cases ow with
  | none => rfl
  | some w =>
    simp only [when_step]
    split <;> split <;> split <;> rfl

lemma when_step_orgs (e : Entities) (ow : Option WhenData) :
    (when_step e ow).organizations = e.organizations := by
  cases ow with
  | none => rfl
  | some w =>
    simp only [when_step]
    split <;> split <;> split <;> rfl

lemma when_step_locations (e : Entities) (ow : Option WhenData) :
    (when_step e ow).locations = e.locations := by
  cases ow with
  | none => rfl
  | some w =>
    simp only [when_step]
    split <;> split <;> split <;> rfl

lemma when_step_time_mem (e : Entities) (ow : Option WhenData) (t : String) :
    t ∈ (when_step e ow).time_references ↔
      t ∈ e.time_references ∨ ∃ w, ow = some w ∧
        ((truthy w.date = true ∧ t = w.date.getD "") ∨
         (truthy w.event_time = true ∧ t = w.event_time.getD "") ∨
         (truthy w.temporal_context = true ∧ t = w.temporal_context.getD "")) := by
  cases ow with
  | none => simp [when_step]
  | some w =>
    simp only [when_step]
    split_ifs <;> simp_all [Finset.mem_insert] <;> tauto

lemma add_claim_people_mem (e : Entities) (c : ClaimData) (p : String) :
    p ∈ (add_claim_entities e c).people ↔ p ∈ e.people ∨ contributes_person c p := by
  unfold add_claim_entities contributes_person
  rw [when_step_people, where_fold_people, who_fold_people]

lemma add_claim_orgs_mem (e : Entities) (c : ClaimData) (o : String) :
    o ∈ (add_claim_entities e c).organizations ↔
      o ∈ e.organizations ∨ contributes_org c o := by
  unfold add_claim_entities contributes_org
  rw [when_step_orgs, where_fold_orgs, who_fold_orgs]

lemma add_claim_locations_mem (e : Entities) (c : ClaimData) (l : String) :
    l ∈ (add_claim_entities e c).locations ↔
      l ∈ e.locations ∨ contributes_location c l := by
  unfold add_claim_entities contributes_location
  rw [when_step_locations, where_fold_locations, who_fold_locations]

lemma add_claim_time_mem (e : Entities) (c : ClaimData) (t : String) :
    t ∈ (add_claim_entities e c).time_references ↔
      t ∈ e.time_references ∨ contributes_time c t := by
  unfold add_claim_entities contributes_time
  rw [when_step_time_mem, where_fold_time, who_fold_time]

lemma fold_claims_people (claims : List ClaimData) (e : Entities) (p : String) :
    p ∈ (claims.foldl add_claim_entities e).people ↔
      p ∈ e.people ∨ ∃ c ∈ claims, contributes_person c p := by
  induction claims generalizing e with
  | nil => simp
  | cons c rest ih =>
    simp only [List.foldl_cons, ih, add_claim_people_mem, List.mem_cons,
      exists_eq_or_imp, or_assoc]

lemma fold_claims_orgs (claims : List ClaimData) (e : Entities) (o : String) :
    o ∈ (claims.foldl add_claim_entities e).organizations ↔
      o ∈ e.organizations ∨ ∃ c ∈ claims, contributes_org c o := by
  induction claims generalizing e with
  | nil => simp
  | cons c rest ih =>
    simp only [List.foldl_cons, ih, add_claim_orgs_mem, List.mem_cons,
      exists_eq_or_imp, or_assoc]

lemma fold_claims_locations (claims : List ClaimData) (e : Entities) (l : String) :
    l ∈ (claims.foldl add_claim_entities e).locations ↔
      l ∈ e.locations ∨ ∃ c ∈ claims, contributes_location c l := by
  induction claims generalizing e with
  | nil => simp
  | cons c rest ih =>
    simp only [List.foldl_cons, ih, add_claim_locations_mem, List.mem_cons,
      exists_eq_or_imp, or_assoc]

lemma fold_claims_time (claims : List ClaimData) (e : Entities) (t : String) :
    t ∈ (claims.foldl add_claim_entities e).time_references ↔
      t ∈ e.time_references ∨ ∃ c ∈ claims, contributes_time c t := by
  induction claims generalizing e with
  | nil => simp
  | cons c rest ih =>
    simp only [List.foldl_cons, ih, add_claim_time_mem, List.mem_cons,
      exists_eq_or_imp, or_assoc]

/-- Claim C8: the entity aggregate is computed from admitted claims only —
every aggregated name originates from a `who`, `where` or `when` field of
some admitted claim, and any two inputs whose admitted sublists coincide
(in particular, inputs differing only in excluded claims) yield the same
entity aggregate. -/
theorem C8_theorem (cs : List ClaimData) :
    (∀ p ∈ (extract_claims_core cs).2.2.people,
      ∃ c ∈ (extract_claims_core cs).1, contributes_person c p) ∧
    (∀ o ∈ (extract_claims_core cs).2.2.organizations,
      ∃ c ∈ (extract_claims_core cs).1, contributes_org c o) ∧
    (∀ l ∈ (extract_claims_core cs).2.2.locations,
      ∃ c ∈ (extract_claims_core cs).1, contributes_location c l) ∧
    (∀ t ∈ (extract_claims_core cs).2.2.time_references,
      ∃ c ∈ (extract_claims_core cs).1, contributes_time c t) ∧
    ∀ cs2 : List ClaimData,
      cs.filter (fun c => (passes_claim_premises c).1) =
        cs2.filter (fun c => (passes_claim_premises c).1) →
      (extract_claims_core cs).2.2 = (extract_claims_core cs2).2.2 := by
  refine ⟨?_, ?_, ?_, ?_, ?_⟩
  · intro p hp
    rcases (fold_claims_people _ _ _).mp hp with hemp | hc
    · exact absurd hemp (by simp [Entities.empty])
    · exact hc
  · intro o ho
    rcases (fold_claims_orgs _ _ _).mp ho with hemp | hc
    · exact absurd hemp (by simp [Entities.empty])
    · exact hc
  · intro l hl
    rcases (fold_claims_locations _ _ _).mp hl with hemp | hc
    · exact absurd hemp (by simp [Entities.empty])
    · exact hc
  · intro t ht
    rcases (fold_claims_time _ _ _).mp ht with hemp | hc
    · exact absurd hemp (by simp [Entities.empty])
    · exact hc
  · intro cs2 hfil
    show extract_entities_from_claims (run_gatekeeper cs).1 =
      extract_entities_from_claims (run_gatekeeper cs2).1
    rw [run_gatekeeper_fst, run_gatekeeper_fst, hfil]

/-- Claim C8, witness: dropping an excluded (low-confidence) claim leaves
the entity aggregate unchanged, and the aggregated person "Jane Doe"
originates from an admitted claim. -/
theorem C8_witness :
    (extract_claims_core [jane_claim, low_confidence_claim]).2.2 =
      (extract_claims_core [jane_claim]).2.2 ∧
    ∃ c ∈ (extract_claims_core [jane_claim, low_confidence_claim]).1,
      contributes_person c "Jane Doe" :=
  ⟨(C8_theorem [jane_claim, low_confidence_claim]).2.2.2.2 [jane_claim] (by decide),
   (C8_theorem [jane_claim, low_confidence_claim]).1 "Jane Doe" (by decide)⟩

/-! ## Claim C5 -/

set_option maxRecDepth 8192 in
set_option maxHeartbeats 1000000 in
/-- Claim C5, counterexample: the mentions `"aaaaaaaaaabbb"` and
`"aaaaaaaaaabbbbbb"` have the same type and fuzzy similarity
2600/29 ≈ 89.7 ≥ 85, yet greedy clustering (which compares only against
the cluster seed `"aaaaaaaaaa"`) puts them in different canonical
entities with different `canonical_id`s. -/
theorem C5_counterexample :
    85 ≤ mention_similarity mention_b.text mention_c.text ∧
    mention_b.label = mention_c.label ∧
    (deduplicate_entities [mention_a, mention_b, mention_c] "PERSON").map
        (fun e => e.mentions) =
      [["aaaaaaaaaa", "aaaaaaaaaabbb"], ["aaaaaaaaaabbbbbb"]] ∧
    (deduplicate_entities [mention_a, mention_b, mention_c] "PERSON").map
        (fun e => e.canonical_id) =
      ["person_212eee9b", "person_eb7afd57"] := by
  refine ⟨by decide, rfl, by decide, by decide⟩

/-- Claim C5, amended: the ≥ 85-similarity guarantee holds against the
cluster seed: if `m1` is the first mention of its entity type and `m2` a
later mention of the same type with case-insensitive fuzzy similarity
≥ 85 to `m1`, deduplication assigns both to the same canonical entity
(and hence the same `canonical_id`); two mentions that are merely ≥ 85
similar to each other need not share an entity. -/
theorem C5_theorem (raw : List Mention) (label : String) (m1 m2 : Mention)
    (rest : List Mention)
    (hfilter : raw.filter (fun m => m.label == label) = m1 :: rest)
    (hm2 : m2 ∈ rest) (hsim : 85 ≤ mention_similarity m1.text m2.text) :
    ∃ e ∈ deduplicate_entities raw label,
      m1.text ∈ e.mentions ∧ m2.text ∈ e.mentions := by
  refine ⟨mk_entity m1 (rest.filter (fun e2 => 85 ≤ mention_similarity m1.text e2.text)),
    ?_, ?_, ?_⟩
  · unfold deduplicate_entities dedup_group
    rw [hfilter]
    exact List.mem_cons_self _ _
  · show m1.text ∈ (mk_entity _ _).mentions
    simp only [mk_entity]
    exact List.mem_dedup.mpr (List.mem_cons_self _ _)
  · show m2.text ∈ (mk_entity _ _).mentions
    simp only [mk_entity]
    refine List.mem_dedup.mpr (List.mem_cons_of_mem _ ?_)
    exact List.mem_map.mpr
      ⟨m2, List.mem_filter.mpr ⟨hm2, decide_eq_true hsim⟩, rfl⟩

/-- Claim C5, witness: `"aaaaaaaaaa"` (cluster seed) and
`"aaaaaaaaaabbb"` (similarity 2000/23 ≈ 87) end up in one canonical
entity. -/
theorem C5_witness :
    ∃ e ∈ deduplicate_entities [mention_a, mention_b] "PERSON",
      mention_a.text ∈ e.mentions ∧ mention_b.text ∈ e.mentions :=
  C5_theorem [mention_a, mention_b] "PERSON" mention_a mention_b [mention_b]
    (by decide) (by decide) (by decide)
